import Mathlib

/-!
Verification of the Decision Control Plane's advisory subsystem.

This file shallowly embeds the `AIAnalyzer` class (`src/ai/analyzer.js`) and
the decision HTTP route handler (`src/routes/decision.routes.js`) in Lean 4.

Modelling conventions:
* JavaScript numbers are modelled as `ℚ` (the advisory confidence values are
  compared and clamped; no floating-point-specific behaviour is claimed).
* JavaScript values decoded from JSON are modelled by the inductive `JsValue`;
  an absent object property (`undefined`) is `Option.none`.
* `JSON.parse` itself is an external library routine; it is modelled as an
  abstract total function `Decode : String → Option JsValue` (`none` when the
  parse throws).  Theorems quantify over it; witnesses instantiate it with
  concrete decoders that agree with `JSON.parse` on the inputs used.
* The network (`axios.post`) is modelled as an oracle
  `Net : Provider → String → ℕ → Except NetError AxiosResponse` receiving the
  provider, the prompt and the timeout passed in the request configuration.
  A thrown transport error or timeout is `Except.error`.
* Wall-clock time (`Date.now() - start`) is abstracted as an `elapsed`
  parameter; the code only stores it in the `analysisTimeMs` field.
-/

namespace DCP

/-- A JSON-decoded JavaScript value. -/
inductive JsValue where
  | jnull
  | jbool (b : Bool)
  | jnum (q : ℚ)
  | jstr (s : String)
  | jarr (xs : List JsValue)
  | jobj (fields : List (String × JsValue))

/-- JavaScript truthiness of a JSON-decoded value (`null`, `false`, `0` and
`""` are falsy; arrays and objects are always truthy). -/
def JsValue.truthy : JsValue → Bool
  | .jnull => false
  | .jbool b => b
  | .jnum q => decide (q ≠ 0)
  | .jstr s => decide (s ≠ "")
  | .jarr _ => true
  | .jobj _ => true

/-- Property access `v.key` on a non-null value: `none` models `undefined`.
Access on `null` throws in JavaScript and is therefore handled separately at
each use site. -/
def JsValue.getField : JsValue → String → Option JsValue
  | .jobj fields, key => fields.lookup key
  | _, _ => none

/-- JavaScript `x || d` where `x` is a possibly-absent decoded value. -/
def jsOrVal (v : Option JsValue) (d : JsValue) : JsValue :=
  match v with
  | some x => if x.truthy then x else d
  | none => d

mutual

/-- `JSON.stringify` (compact form; the `null, 2` pretty-printing indentation
of the source is immaterial, the prompt string is only ever passed opaquely to
the network oracle). -/
def JsValue.stringify : JsValue → String
  | .jnull => "null"
  | .jbool b => cond b "true" "false"
  | .jnum q => toString q
  | .jstr s => "\x22" ++ s ++ "\x22"
  | .jarr xs => "[" ++ stringifyArr xs ++ "]"
  | .jobj fs => "\x7b" ++ stringifyObj fs ++ "\x7d"

def stringifyArr : List JsValue → String
  | [] => ""
  | [x] => x.stringify
  | x :: y :: rest => x.stringify ++ "," ++ stringifyArr (y :: rest)

def stringifyObj : List (String × JsValue) → String
  | [] => ""
  | [(k, v)] => "\x22" ++ k ++ "\x22:" ++ v.stringify
  | (k, v) :: f :: rest => "\x22" ++ k ++ "\x22:" ++ v.stringify ++ "," ++ stringifyObj (f :: rest)

end

/-- The backquote character, used by markdown code fences. -/
def bq : Char := Char.ofNat 96

/-- Does the character list start with the 7-character fence `bq bq bq j s o n`? -/
def fenceJsonAt : List Char → Bool
  | c1 :: c2 :: c3 :: c4 :: c5 :: c6 :: c7 :: _ =>
      c1 == bq && c2 == bq && c3 == bq && c4 == 'j' && c5 == 's' && c6 == 'o' && c7 == 'n'
  | _ => false

/-- Does the character list start with the 3-character fence `bq bq bq`? -/
def fenceAt : List Char → Bool
  | c1 :: c2 :: c3 :: _ => c1 == bq && c2 == bq && c3 == bq
  | _ => false

/-- Global replacement of the regex alternation used in
`raw.replace(/<fence>json|<fence>/g, "")`: scanning left to right, at each
position the longer alternative is tried first, and scanning resumes after a
removed match.  The recursion is driven by a fuel counter equal to the input
length (each step consumes at least one character), which keeps the function
structurally recursive and kernel-evaluable. -/
def stripFencesAux : ℕ → List Char → List Char
  | 0, cs => cs
  | _ + 1, [] => []
  | fuel + 1, c :: rest =>
    if fenceJsonAt (c :: rest) then stripFencesAux fuel (rest.drop 6)
    else if fenceAt (c :: rest) then stripFencesAux fuel (rest.drop 2)
    else c :: stripFencesAux fuel rest

/-- One pass of the global fence-removing replacement over the whole text. -/
def stripFences (cs : List Char) : List Char :=
  stripFencesAux cs.length cs

/-- JavaScript `String.prototype.trim`: remove leading and trailing
whitespace. -/
def trimChars (cs : List Char) : List Char :=
  ((cs.dropWhile Char.isWhitespace).reverse.dropWhile Char.isWhitespace).reverse

/-- The `cleaned` text of `parseResponse`: code fences removed, then trimmed. -/
def clean (raw : String) : String :=
  String.mk (trimChars (stripFences raw.data))

/-- Abstract model of `JSON.parse`: `none` when parsing throws. -/
def Decode : Type := String → Option JsValue

/-- One entry of the configured provider list. -/
structure Provider where
  name : String
  apiUrl : String
  apiKey : String
  model : String

/-- A failure of the `axios.post` call (timeout expiry or transport error). -/
inductive NetError where
  | timeout
  | transport (msg : String)

/-- The response payload (`response.data`), projected onto the paths the code
reads: the Gemini safety-block reason at `promptFeedback.blockReason`, the
Gemini text parts at `candidates[0].content.parts[].text` (`none` when any
link of that optional chain is missing), and the Claude text at
`content[0].text`. -/
structure AxiosResponse where
  promptFeedbackBlockReason : Option String
  geminiParts : Option (List String)
  claudeText : Option String

/-- The network oracle: provider, request prompt, and the timeout passed in
the axios request configuration. -/
def Net : Type := Provider → String → ℕ → Except NetError AxiosResponse

/-- The advisory analyzer state built by the constructor. -/
structure AIAnalyzer where
  enabled : Bool
  providers : List Provider
  timeout : ℕ
  confidenceThreshold : ℚ

/-- The raw constructor argument: each field may be absent (`undefined`). -/
structure AIConfig where
  enabled : Option Bool
  providers : Option (List Provider)
  timeout : Option ℕ
  confidenceThreshold : Option ℚ

/-- JavaScript `x || d` for a possibly-absent boolean. -/
def jsOrBool (v : Option Bool) (d : Bool) : Bool :=
  match v with
  | none => d
  | some b => b || d

/-- JavaScript `x || d` for a possibly-absent number: `0` is falsy. -/
def jsOrNum (v : Option ℚ) (d : ℚ) : ℚ :=
  match v with
  | none => d
  | some x => if x = 0 then d else x

/-- JavaScript `x || d` for a possibly-absent natural number: `0` is falsy. -/
def jsOrNat (v : Option ℕ) (d : ℕ) : ℕ :=
  match v with
  | none => d
  | some x => if x = 0 then d else x

/-- JavaScript `x || d` for a possibly-absent array (arrays are always truthy). -/
def jsOrProviders (v : Option (List Provider)) (d : List Provider) : List Provider :=
  match v with
  | none => d
  | some xs => xs

/-- `new AIAnalyzer(config)`: every default is applied with falsy-or. -/
def mkAIAnalyzer (config : AIConfig) : AIAnalyzer :=
  { enabled := jsOrBool config.enabled false
    providers := jsOrProviders config.providers []
    timeout := jsOrNat config.timeout 5000
    confidenceThreshold := jsOrNum config.confidenceThreshold (mkRat 7 10) }

/-- `buildPrompt(input, ruleContext)`. -/
def buildPrompt (input ruleContext : JsValue) : String :=
  "You are a decision support system analyzing a GREY-ZONE request.\n\nREQUEST:\n"
    ++ input.stringify
    ++ "\n\nRULE CONTEXT:\n"
    ++ (jsOrVal (ruleContext.getField "evaluationPath") (.jarr [])).stringify
    ++ "\n\nRespond ONLY in JSON:\n\x7b\n  \x22recommendation\x22: \x22ALLOW\x22 | \x22DENY\x22 | \x22REVIEW\x22,\n  \x22confidence\x22: 0.0-1.0,\n  \x22reasoning\x22: \x22short explanation\x22,\n  \x22risk_factors\x22: [],\n  \x22mitigating_factors\x22: []\n\x7d"

/-- An error thrown out of `callProvider`: unknown provider name, a network
failure, a Gemini safety block, or an empty reply. -/
inductive CallError where
  | unknownProvider (name : String)
  | net (e : NetError)
  | geminiBlocked (reason : String)
  | emptyResponse (code : String)

/-- `extractContent(providerName, response)`: `none` models the JavaScript
`null` result (missing path or empty joined text, via `|| null`). -/
def extractContent (providerName : String) (resp : AxiosResponse) : Option String :=
  if providerName = "gemini" then
    match resp.geminiParts with
    | none => none
    | some parts =>
      let s := String.join parts
      if s = "" then none else some s
  else if providerName = "claude" then
    match resp.claudeText with
    | none => none
    | some t => if t = "" then none else some t
  else none

/-- `callProvider(provider, prompt)`: branch on the provider name, post with
the configured timeout, check the Gemini safety block, extract the content,
and throw on an empty reply.  An unknown provider name throws before any
network request is issued. -/
def callProvider (a : AIAnalyzer) (net : Net) (provider : Provider) (prompt : String) :
    Except CallError String :=
  if provider.name = "gemini" then
    match net provider prompt a.timeout with
    | .error e => .error (.net e)
    | .ok resp =>
      match resp.promptFeedbackBlockReason with
      | some r => .error (.geminiBlocked r)
      | none =>
        match extractContent "gemini" resp with
        | none => .error (.emptyResponse "GEMINI_EMPTY_RESPONSE")
        | some content => .ok content
  else if provider.name = "claude" then
    match net provider prompt a.timeout with
    | .error e => .error (.net e)
    | .ok resp =>
      match extractContent "claude" resp with
      | none => .error (.emptyResponse "EMPTY_AI_RESPONSE")
      | some content => .ok content
  else .error (.unknownProvider provider.name)

/-- The structured result of `parseResponse`. -/
structure ParsedResponse where
  recommendation : String
  confidence : ℚ
  reasoning : JsValue
  riskFactors : JsValue
  mitigatingFactors : JsValue

/-- The fixed fallback returned by `parseResponse`'s catch block. -/
def invalidResponse : ParsedResponse :=
  { recommendation := "REVIEW"
    confidence := 0
    reasoning := .jstr "Invalid AI response"
    riskFactors := .jarr []
    mitigatingFactors := .jarr [] }

/-- `["ALLOW","DENY","REVIEW"].includes(parsed.recommendation) ? parsed.recommendation : "REVIEW"`. -/
def recommendationOf (v : Option JsValue) : String :=
  match v with
  | some (.jstr s) => if s = "ALLOW" ∨ s = "DENY" ∨ s = "REVIEW" then s else "REVIEW"
  | _ => "REVIEW"

/-- `Math.max(0, Math.min(1, x))`. -/
def clamp01 (q : ℚ) : ℚ := max 0 (min 1 q)

/-- `typeof parsed.confidence === "number" ? clamp : 0.5`. -/
def confidenceOf (v : Option JsValue) : ℚ :=
  match v with
  | some (.jnum q) => clamp01 q
  | _ => mkRat 1 2

/-- The body of `parseResponse` after `JSON.parse`: `none` models a parse
throw; a decoded `null` makes the subsequent property access
`parsed.recommendation` throw, which the same catch block absorbs. -/
def parseDecoded : Option JsValue → ParsedResponse
  | none => invalidResponse
  | some .jnull => invalidResponse
  | some v =>
    { recommendation := recommendationOf (v.getField "recommendation")
      confidence := confidenceOf (v.getField "confidence")
      reasoning := jsOrVal (v.getField "reasoning") (.jstr "")
      riskFactors := jsOrVal (v.getField "risk_factors") (.jarr [])
      mitigatingFactors := jsOrVal (v.getField "mitigating_factors") (.jarr []) }

/-- `parseResponse(raw)`: strip code fences, trim, parse, validate.  Total —
every throw inside the try block lands in the catch and yields
`invalidResponse`. -/
def parseResponse (decode : Decode) (raw : String) : ParsedResponse :=
  parseDecoded (decode (clean raw))

/-- The insight object returned by `analyze`.  Fields that a given return
path leaves undefined are `none`. -/
structure AIInsight where
  analyzed : Bool
  meetsConfidenceThreshold : Bool
  provider : Option String := none
  model : Option String := none
  analysisTimeMs : Option ℕ := none
  recommendation : Option String := none
  confidence : Option ℚ := none
  reasoning : Option JsValue := none
  riskFactors : Option JsValue := none
  mitigatingFactors : Option JsValue := none
  reason : Option String := none

/-- The early return of `analyze` when the analyzer is disabled. -/
def disabledInsight : AIInsight :=
  { analyzed := false, meetsConfidenceThreshold := false }

/-- The return of `analyze` after the provider loop is exhausted. -/
def allFailedInsight (elapsed : ℕ) : AIInsight :=
  { analyzed := false
    meetsConfidenceThreshold := false
    reason := some "ALL_PROVIDERS_FAILED"
    analysisTimeMs := some elapsed }

/-- The return of `analyze` on the first successful provider call: the parsed
fields are spread into the insight, `meetsConfidenceThreshold` is computed
once from the parsed confidence and the configured threshold. -/
def successInsight (a : AIAnalyzer) (p : Provider) (parsed : ParsedResponse) (elapsed : ℕ) :
    AIInsight :=
  { analyzed := true
    provider := some p.name
    model := some p.model
    analysisTimeMs := some elapsed
    meetsConfidenceThreshold := decide (a.confidenceThreshold ≤ parsed.confidence)
    recommendation := some parsed.recommendation
    confidence := some parsed.confidence
    reasoning := some parsed.reasoning
    riskFactors := some parsed.riskFactors
    mitigatingFactors := some parsed.mitigatingFactors }

/-- The `for (const provider of this.providers)` loop of `analyze`: a thrown
provider error is caught, logged, and the loop advances; the first successful
call returns immediately. -/
def analyzeLoop (a : AIAnalyzer) (net : Net) (decode : Decode) (prompt : String)
    (elapsed : ℕ) : List Provider → AIInsight
  | [] => allFailedInsight elapsed
  | p :: rest =>
    match callProvider a net p prompt with
    | .ok raw => successInsight a p (parseResponse decode raw) elapsed
    | .error _ => analyzeLoop a net decode prompt elapsed rest

/-- `analyze(input, ruleContext)`. -/
def analyze (a : AIAnalyzer) (net : Net) (decode : Decode) (input ruleContext : JsValue)
    (elapsed : ℕ) : AIInsight :=
  if a.enabled then
    analyzeLoop a net decode (buildPrompt input ruleContext) elapsed a.providers
  else disabledInsight

/-- The final decision object returned by `combineDecision`.  `finalDecision`
is an `Option` because the grey-zone branch copies `aiInsight.recommendation`
verbatim, which an arbitrary insight object may leave undefined. -/
structure FinalDecision where
  finalDecision : Option String
  source : String
  confidence : Option ℚ := none

/-- `aiInsight.confidence >= this.confidenceThreshold` under JavaScript
comparison semantics: comparing `undefined` yields false. -/
def insightConfidenceAtLeast (threshold : ℚ) (i : AIInsight) : Bool :=
  match i.confidence with
  | some c => decide (threshold ≤ c)
  | none => false

/-- The guard of the SAFE_ALLOW branch:
`aiInsight?.analyzed && aiInsight.recommendation === "DENY" && aiInsight.confidence >= this.confidenceThreshold`. -/
def aiFlagsDeny (a : AIAnalyzer) (aiInsight : Option AIInsight) : Bool :=
  match aiInsight with
  | none => false
  | some i =>
    i.analyzed && decide (i.recommendation = some "DENY")
      && insightConfidenceAtLeast a.confidenceThreshold i

/-- `combineDecision(ruleOutcome, aiInsight)`. -/
def combineDecision (a : AIAnalyzer) (ruleOutcome : String) (aiInsight : Option AIInsight) :
    FinalDecision :=
  if ruleOutcome = "SAFE_DENY" then
    { finalDecision := some "DENY", source := "RULE_ABSOLUTE" }
  else if ruleOutcome = "SAFE_ALLOW" then
    if aiFlagsDeny a aiInsight then
      { finalDecision := some "REVIEW", source := "AI_FLAGGED_REVIEW" }
    else
      { finalDecision := some "ALLOW", source := "RULE" }
  else
    match aiInsight with
    | none => { finalDecision := some "REVIEW", source := "AI_UNAVAILABLE" }
    | some i =>
      if i.analyzed = false then
        { finalDecision := some "REVIEW", source := "AI_UNAVAILABLE" }
      else if i.meetsConfidenceThreshold then
        { finalDecision := i.recommendation, source := "AI_RECOMMENDED", confidence := i.confidence }
      else
        { finalDecision := some "REVIEW", source := "AI_UNCERTAIN" }

/-- The service result consumed by the route handler: the handler only reads
`result.decision.final`; the rest of the body is carried opaquely. -/
structure ServiceResult where
  decisionFinal : String
  payload : JsValue

/-- The JSON body written by the `/decide` route: either the service result,
or the synthesized system-error envelope. -/
inductive ResponseBody where
  | success (result : ServiceResult)
  | systemError (final source message requestId version timestamp : String)

/-- The `/decide` handler of `decisionRoutes`: `decisionService.decide` either
resolves (`Except.ok`) or rejects (`Except.error`); a rejection is caught and
converted to a 500 response with a fixed error envelope carrying the request
id.  The handler is a total function: a response is always produced. -/
def handleDecide (requestId version timestamp : String)
    (decideOutcome : Except String ServiceResult) : ℕ × ResponseBody :=
  match decideOutcome with
  | .ok result =>
    ((if result.decisionFinal = "ERROR" then 500 else 200), .success result)
  | .error _ =>
    (500, .systemError "ERROR" "SYSTEM_ERROR" "Internal server error" requestId version timestamp)

/-! ### Concrete fixtures

Sample providers, analyzers, network oracles, decoders and insights used to
instantiate the theorems below on closed inputs. -/

/-- A Gemini provider entry. -/
def provGemini : Provider :=
  { name := "gemini", apiUrl := "https://gemini.example", apiKey := "key-g", model := "gemini-pro" }

/-- A Claude provider entry. -/
def provClaude : Provider :=
  { name := "claude", apiUrl := "https://claude.example", apiKey := "key-c", model := "claude-3" }

/-- A provider entry whose name matches no supported branch. -/
def provOther : Provider :=
  { name := "other", apiUrl := "https://other.example", apiKey := "key-o", model := "m" }

/-- A network on which every request times out. -/
def netDown : Net := fun _ _ _ => .error .timeout

/-- A reply whose extracted text is the literal `not json`. -/
def respNotJson : AxiosResponse :=
  { promptFeedbackBlockReason := none
    geminiParts := some ["not json"]
    claudeText := some "not json" }

/-- A network on which every request succeeds with the `not json` reply. -/
def netNotJson : Net := fun _ _ _ => .ok respNotJson

/-- A decoder on which every parse throws (models `JSON.parse` on text that
is not JSON, such as `not json`). -/
def decodeNone : Decode := fun _ => none

/-- A decoder agreeing with `JSON.parse` on the input text `null`, which
successfully decodes to the JSON null value. -/
def decodeNullLit : Decode := fun s => if s = "null" then some .jnull else none

/-- A decoded advisory payload recommending DENY with out-of-range confidence. -/
def payloadHighDeny : JsValue :=
  .jobj [("recommendation", .jstr "DENY"), ("confidence", .jnum (mkRat 3 2))]

/-- A decoder mapping the text `OBJ` to `payloadHighDeny`. -/
def decodeObj : Decode := fun s => if s = "OBJ" then some payloadHighDeny else none

/-- A decoded advisory payload whose recommendation is not one of the three
validated values. -/
def payloadBadRec : JsValue := .jobj [("recommendation", .jstr "MAYBE")]

/-- A decoder mapping the text `BAD` to `payloadBadRec`. -/
def decodeBadRec : Decode := fun s => if s = "BAD" then some payloadBadRec else none

/-- An analyzer constructed with `enabled` left undefined (disabled). -/
def analyzerDisabled : AIAnalyzer :=
  { enabled := false, providers := [provGemini], timeout := 1000, confidenceThreshold := mkRat 7 10 }

/-- An enabled analyzer with a single Gemini provider. -/
def analyzerGeminiOnly : AIAnalyzer :=
  { enabled := true, providers := [provGemini], timeout := 1000, confidenceThreshold := mkRat 7 10 }

/-- An enabled analyzer whose only provider has an unknown name. -/
def analyzerUnknownOnly : AIAnalyzer :=
  { enabled := true, providers := [provOther], timeout := 1000, confidenceThreshold := mkRat 7 10 }

/-- An enabled analyzer with an unknown provider first, then Gemini and Claude. -/
def analyzerMixed : AIAnalyzer :=
  { enabled := true, providers := [provOther, provGemini, provClaude], timeout := 1000,
    confidenceThreshold := mkRat 7 10 }

/-- An analyzed insight: ALLOW at confidence 0.9, above the 0.7 threshold. -/
def insightAllowHigh : AIInsight :=
  { analyzed := true, meetsConfidenceThreshold := true,
    recommendation := some "ALLOW", confidence := some (mkRat 9 10) }

/-- An analyzed insight: ALLOW at confidence 0.4, below the 0.7 threshold. -/
def insightAllowLow : AIInsight :=
  { analyzed := true, meetsConfidenceThreshold := false,
    recommendation := some "ALLOW", confidence := some (mkRat 2 5) }

/-- An analyzed insight: DENY at confidence 0.85, above the 0.7 threshold. -/
def insightDenyHigh : AIInsight :=
  { analyzed := true, meetsConfidenceThreshold := true,
    recommendation := some "DENY", confidence := some (mkRat 85 100) }

/-! ### Helper lemmas about the provider loop -/

/-- When every provider in the list fails, the loop falls through to the
all-providers-failed insight. -/
theorem analyzeLoop_all_fail (a : AIAnalyzer) (net : Net) (decode : Decode) (prompt : String)
    (elapsed : ℕ) (ps : List Provider)
    (h : ∀ p ∈ ps, ∃ e, callProvider a net p prompt = .error e) :
    analyzeLoop a net decode prompt elapsed ps = allFailedInsight elapsed := by
  induction ps with
  | nil => rfl
  | cons p rest ih =>
    obtain ⟨e, he⟩ := h p (List.mem_cons_self p rest)
    simp only [analyzeLoop, he]
    exact ih fun q hq => h q (List.mem_cons_of_mem _ hq)

/-- When every provider before `p` fails and `p` succeeds with `raw`, the loop
returns the insight built from `p`'s parsed reply; the providers after `p` do
not occur in the result. -/
theorem analyzeLoop_first_ok (a : AIAnalyzer) (net : Net) (decode : Decode) (prompt : String)
    (elapsed : ℕ) (pre post : List Provider) (p : Provider) (raw : String)
    (hpre : ∀ q ∈ pre, ∃ e, callProvider a net q prompt = .error e)
    (hp : callProvider a net p prompt = .ok raw) :
    analyzeLoop a net decode prompt elapsed (pre ++ p :: post) =
      successInsight a p (parseResponse decode raw) elapsed := by
  induction pre with
  | nil => simp only [List.nil_append, analyzeLoop, hp]
  | cons q qs ih =>
    obtain ⟨e, he⟩ := hpre q (List.mem_cons_self q qs)
    simp only [List.cons_append, analyzeLoop, he]
    exact ih fun r hr => hpre r (List.mem_cons_of_mem _ hr)

/-- `callProvider` consults the network only at the configured timeout. -/
theorem callProvider_net_eq (a : AIAnalyzer) (net net' : Net) (p : Provider) (prompt : String)
    (h : net p prompt a.timeout = net' p prompt a.timeout) :
    callProvider a net p prompt = callProvider a net' p prompt := by
  unfold callProvider
  rw [h]

/-- The provider loop only depends on the network's behaviour at the
configured timeout. -/
theorem analyzeLoop_net_congr (a : AIAnalyzer) (net net' : Net) (decode : Decode)
    (prompt : String) (elapsed : ℕ) (ps : List Provider)
    (h : ∀ q s, net q s a.timeout = net' q s a.timeout) :
    analyzeLoop a net decode prompt elapsed ps = analyzeLoop a net' decode prompt elapsed ps := by
  induction ps with
  | nil => rfl
  | cons p rest ih =>
    simp only [analyzeLoop, callProvider_net_eq a net net' p prompt (h p prompt), ih]

/-- `analyze` only depends on the network's behaviour at the configured
timeout: every attempt is bounded by that timeout. -/
theorem analyze_net_congr (a : AIAnalyzer) (net net' : Net) (decode : Decode)
    (input ctx : JsValue) (elapsed : ℕ)
    (h : ∀ q s, net q s a.timeout = net' q s a.timeout) :
    analyze a net decode input ctx elapsed = analyze a net' decode input ctx elapsed := by
  unfold analyze
  rw [analyzeLoop_net_congr a net net' decode (buildPrompt input ctx) elapsed a.providers h]

/-- `callProvider` reads only the `timeout` field of the analyzer record. -/
theorem callProvider_config_congr (a a' : AIAnalyzer) (net : Net) (p : Provider)
    (prompt : String) (ht : a'.timeout = a.timeout) :
    callProvider a' net p prompt = callProvider a net p prompt := by
  unfold callProvider
  rw [ht]

/-- Building the success insight reads only the `confidenceThreshold` field
of the analyzer record. -/
theorem successInsight_config_congr (a a' : AIAnalyzer) (p : Provider) (parsed : ParsedResponse)
    (elapsed : ℕ) (hc : a'.confidenceThreshold = a.confidenceThreshold) :
    successInsight a' p parsed elapsed = successInsight a p parsed elapsed := by
  unfold successInsight
  rw [hc]

/-- The provider loop reads only the `timeout` and `confidenceThreshold`
fields of the analyzer record; in particular the `providers` field only
selects which list the loop is started on. -/
theorem analyzeLoop_config_congr (a a' : AIAnalyzer) (net : Net) (decode : Decode)
    (prompt : String) (elapsed : ℕ) (l : List Provider)
    (ht : a'.timeout = a.timeout) (hc : a'.confidenceThreshold = a.confidenceThreshold) :
    analyzeLoop a' net decode prompt elapsed l = analyzeLoop a net decode prompt elapsed l := by
  induction l with
  | nil => rfl
  | cons p rest ih =>
    simp only [analyzeLoop, callProvider_config_congr a a' net p prompt ht]
    cases callProvider a net p prompt with
    | ok raw => exact successInsight_config_congr a a' p (parseResponse decode raw) elapsed hc
    | error e => exact ih

/-- A provider whose name is neither `gemini` nor `claude` makes
`callProvider` throw before any network request. -/
theorem callProvider_unknown (a : AIAnalyzer) (net : Net) (p : Provider) (prompt : String)
    (h1 : p.name ≠ "gemini") (h2 : p.name ≠ "claude") :
    callProvider a net p prompt = .error (.unknownProvider p.name) := by
  simp [callProvider, h1, h2]

/-- Every recommendation produced by `recommendationOf` is one of the three
validated values. -/
theorem recommendationOf_mem (ov : Option JsValue) :
    recommendationOf ov = "ALLOW" ∨ recommendationOf ov = "DENY"
      ∨ recommendationOf ov = "REVIEW" := by
  rcases ov with _ | v
  · simp [recommendationOf]
  · cases v with
    | jstr s =>
      by_cases h : s = "ALLOW" ∨ s = "DENY" ∨ s = "REVIEW"
      · have hs : recommendationOf (some (.jstr s)) = s := by simp [recommendationOf, h]
        rw [hs]; exact h
      · simp [recommendationOf, h]
    | jnull => simp [recommendationOf]
    | jbool b => simp [recommendationOf]
    | jnum q => simp [recommendationOf]
    | jarr xs => simp [recommendationOf]
    | jobj fs => simp [recommendationOf]

/-- Every confidence produced by `confidenceOf` lies in `[0, 1]`. -/
theorem confidenceOf_bounds (ov : Option JsValue) :
    0 ≤ confidenceOf ov ∧ confidenceOf ov ≤ 1 := by
  unfold confidenceOf
  rcases ov with _ | v
  · constructor <;> norm_num [mkRat]
  · cases v with
    | jnum q =>
      unfold clamp01
      exact ⟨le_max_left 0 _, max_le (by norm_num) (min_le_left 1 q)⟩
    | jnull => constructor <;> norm_num [mkRat]
    | jbool b => constructor <;> norm_num [mkRat]
    | jstr s => constructor <;> norm_num [mkRat]
    | jarr xs => constructor <;> norm_num [mkRat]
    | jobj fs => constructor <;> norm_num [mkRat]

/-- Unfolding `parseDecoded` on a successfully decoded non-null value. -/
theorem parseDecoded_some (v : JsValue) (hv : v ≠ .jnull) :
    parseDecoded (some v) =
      { recommendation := recommendationOf (v.getField "recommendation")
        confidence := confidenceOf (v.getField "confidence")
        reasoning := jsOrVal (v.getField "reasoning") (.jstr "")
        riskFactors := jsOrVal (v.getField "risk_factors") (.jarr [])
        mitigatingFactors := jsOrVal (v.getField "mitigating_factors") (.jarr []) } := by
  cases v with
  | jnull => exact absurd rfl hv
  | jbool b => rfl
  | jnum q => rfl
  | jstr s => rfl
  | jarr xs => rfl
  | jobj fs => rfl

/-! ### The claims -/

/-- Claim C1: for every rule outcome equal to SAFE_DENY and every possible
insight (present or absent, any recommendation, any confidence),
`combineDecision` returns DENY with source RULE_ABSOLUTE, and the advisory
insight is never inspected on that branch — the result is identical for any
two insights. -/
theorem claim_C1 (a : AIAnalyzer) (i : Option AIInsight) :
    combineDecision a "SAFE_DENY" i =
      { finalDecision := some "DENY", source := "RULE_ABSOLUTE", confidence := none } ∧
    ∀ j : Option AIInsight, combineDecision a "SAFE_DENY" i = combineDecision a "SAFE_DENY" j :=
  ⟨rfl, fun _ => rfl⟩

/-- Claim C2: on a GREY_ZONE outcome with an analyzed insight,
`combineDecision` returns the insight's recommendation verbatim with source
AI_RECOMMENDED and the insight's confidence attached when the insight's
`meetsConfidenceThreshold` flag is set, and REVIEW with source AI_UNCERTAIN
otherwise; the flag itself is computed once, when `analyze` builds the
insight, as `confidence ≥ threshold`. -/
theorem claim_C2 (a : AIAnalyzer) (i : AIInsight) (h : i.analyzed = true) :
    (i.meetsConfidenceThreshold = true →
      combineDecision a "GREY_ZONE" (some i) =
        { finalDecision := i.recommendation, source := "AI_RECOMMENDED",
          confidence := i.confidence }) ∧
    (i.meetsConfidenceThreshold = false →
      combineDecision a "GREY_ZONE" (some i) =
        { finalDecision := some "REVIEW", source := "AI_UNCERTAIN", confidence := none }) ∧
    ∀ (p : Provider) (parsed : ParsedResponse) (elapsed : ℕ),
      (successInsight a p parsed elapsed).meetsConfidenceThreshold
        = decide (a.confidenceThreshold ≤ parsed.confidence) := by
  refine ⟨fun hm => ?_, fun hm => ?_, fun p parsed elapsed => rfl⟩
  · simp [combineDecision, h, hm]
  · simp [combineDecision, h, hm]

/-- Witness for C2 at concrete insights: high-confidence ALLOW is adopted
verbatim, low-confidence ALLOW escalates to REVIEW. -/
theorem claim_C2_witness :
    combineDecision analyzerGeminiOnly "GREY_ZONE" (some insightAllowHigh) =
      { finalDecision := some "ALLOW", source := "AI_RECOMMENDED",
        confidence := some (mkRat 9 10) } ∧
    combineDecision analyzerGeminiOnly "GREY_ZONE" (some insightAllowLow) =
      { finalDecision := some "REVIEW", source := "AI_UNCERTAIN", confidence := none } :=
  ⟨(claim_C2 analyzerGeminiOnly insightAllowHigh rfl).1 rfl,
   (claim_C2 analyzerGeminiOnly insightAllowLow rfl).2.1 rfl⟩

/-- Claim C3: on a SAFE_ALLOW outcome, `combineDecision` returns REVIEW with
source AI_FLAGGED_REVIEW exactly when the insight is analyzed, recommends
DENY and has confidence at least the configured threshold, and ALLOW with
source RULE in every other case (insight absent or not analyzed, or
recommendation different from DENY, or confidence below the threshold —
comparison against an absent confidence is false, as in JavaScript). -/
theorem claim_C3 (a : AIAnalyzer) (o : Option AIInsight) :
    (aiFlagsDeny a o = true →
      combineDecision a "SAFE_ALLOW" o =
        { finalDecision := some "REVIEW", source := "AI_FLAGGED_REVIEW", confidence := none }) ∧
    (aiFlagsDeny a o = false →
      combineDecision a "SAFE_ALLOW" o =
        { finalDecision := some "ALLOW", source := "RULE", confidence := none }) ∧
    (aiFlagsDeny a o = false ↔
      ∀ i : AIInsight, o = some i →
        i.analyzed = false ∨ i.recommendation ≠ some "DENY"
          ∨ insightConfidenceAtLeast a.confidenceThreshold i = false) := by
  refine ⟨fun h => by simp [combineDecision, h], fun h => by simp [combineDecision, h], ?_⟩
  cases o with
  | none => simp [aiFlagsDeny]
  | some i =>
    simp only [aiFlagsDeny, Option.some.injEq, forall_eq']
    cases hA : i.analyzed <;>
      cases hC : insightConfidenceAtLeast a.confidenceThreshold i <;>
        by_cases hR : i.recommendation = some "DENY" <;>
          simp [hA, hC, hR]

/-- Witness for C3: an analyzed confident DENY flags a SAFE_ALLOW for review;
an absent insight leaves the rule ALLOW untouched. -/
theorem claim_C3_witness :
    combineDecision analyzerGeminiOnly "SAFE_ALLOW" (some insightDenyHigh) =
      { finalDecision := some "REVIEW", source := "AI_FLAGGED_REVIEW", confidence := none } ∧
    combineDecision analyzerGeminiOnly "SAFE_ALLOW" none =
      { finalDecision := some "ALLOW", source := "RULE", confidence := none } :=
  ⟨(claim_C3 analyzerGeminiOnly (some insightDenyHigh)).1 rfl,
   (claim_C3 analyzerGeminiOnly none).2.1 rfl⟩

/-- Claim C8: a rejection escaping `decisionService.decide` is caught at the
`/decide` route boundary and converted to a 500 response whose decision is
`final:"ERROR", source:"SYSTEM_ERROR"` and whose error object carries the
caller's request id; the handler is total, so a response body is always
produced (the resolved case is characterized as well). -/
theorem claim_C8 (requestId version timestamp errMsg : String) :
    handleDecide requestId version timestamp (.error errMsg) =
      (500, .systemError "ERROR" "SYSTEM_ERROR" "Internal server error"
        requestId version timestamp) ∧
    ∀ r : ServiceResult,
      handleDecide requestId version timestamp (.ok r) =
        ((if r.decisionFinal = "ERROR" then 500 else 200), .success r) :=
  ⟨rfl, fun _ => rfl⟩

/-- Claim C9: the constructor applies its defaults with falsy-or, so an
explicitly configured `confidenceThreshold` of 0 yields the default 0.7, a
`timeout` of 0 yields the default 5000, and `enabled:false` stays disabled;
consequently no configuration can produce a threshold of exactly 0. -/
theorem claim_C9 (e : Option Bool) (ps : Option (List Provider)) (t : Option ℕ) (c : Option ℚ) :
    (mkAIAnalyzer ⟨e, ps, t, some 0⟩).confidenceThreshold = mkRat 7 10 ∧
    (mkAIAnalyzer ⟨e, ps, some 0, c⟩).timeout = 5000 ∧
    (mkAIAnalyzer ⟨some false, ps, t, c⟩).enabled = false ∧
    ∀ cfg : AIConfig, decide ((mkAIAnalyzer cfg).confidenceThreshold = 0) = false := by
  refine ⟨by simp [mkAIAnalyzer, jsOrNum], rfl, rfl, ?_⟩
  intro cfg
  rcases hc : cfg.confidenceThreshold with _ | x
  · simp [mkAIAnalyzer, jsOrNum, hc]
  · by_cases hx : x = 0
    · subst hx
      simp [mkAIAnalyzer, jsOrNum, hc]
    · simp [mkAIAnalyzer, jsOrNum, hc, hx]

/-- Claim C4: a disabled advisor returns an unanalyzed insight for every
network (so no provider call can have been attempted); when enabled but every
configured provider fails, `analyze` returns the unanalyzed insight carrying
reason ALL_PROVIDERS_FAILED and the elapsed analysis time; and combining any
unanalyzed insight with a GREY_ZONE outcome yields REVIEW with source
AI_UNAVAILABLE. -/
theorem claim_C4 (a : AIAnalyzer) (net : Net) (decode : Decode) (input ctx : JsValue)
    (elapsed : ℕ) :
    (a.enabled = false → analyze a net decode input ctx elapsed = disabledInsight) ∧
    (a.enabled = true →
      (∀ p ∈ a.providers, ∃ err, callProvider a net p (buildPrompt input ctx) = .error err) →
      analyze a net decode input ctx elapsed = allFailedInsight elapsed) ∧
    disabledInsight.analyzed = false ∧
    (allFailedInsight elapsed).analyzed = false ∧
    (allFailedInsight elapsed).reason = some "ALL_PROVIDERS_FAILED" ∧
    (allFailedInsight elapsed).analysisTimeMs = some elapsed ∧
    ∀ i : AIInsight, i.analyzed = false →
      combineDecision a "GREY_ZONE" (some i) =
        { finalDecision := some "REVIEW", source := "AI_UNAVAILABLE", confidence := none } := by
  refine ⟨fun hd => by simp [analyze, hd], fun he hfail => ?_, rfl, rfl, rfl, rfl,
    fun i hi => by simp [combineDecision, hi]⟩
  simp only [analyze, he, if_true]
  exact analyzeLoop_all_fail a net decode (buildPrompt input ctx) elapsed a.providers hfail

/-- Witness for C4: a disabled analyzer, then an enabled analyzer whose only
provider has an unknown name (so every provider fails), then the grey-zone
combination of the failed insight. -/
theorem claim_C4_witness :
    analyze analyzerDisabled netDown decodeNone .jnull .jnull 3 = disabledInsight ∧
    analyze analyzerUnknownOnly netDown decodeNone .jnull .jnull 3 = allFailedInsight 3 ∧
    combineDecision analyzerUnknownOnly "GREY_ZONE" (some (allFailedInsight 3)) =
      { finalDecision := some "REVIEW", source := "AI_UNAVAILABLE", confidence := none } := by
  refine ⟨(claim_C4 analyzerDisabled netDown decodeNone .jnull .jnull 3).1 rfl,
    (claim_C4 analyzerUnknownOnly netDown decodeNone .jnull .jnull 3).2.1 rfl ?_,
    (claim_C4 analyzerUnknownOnly netDown decodeNone .jnull .jnull 3).2.2.2.2.2.2
      (allFailedInsight 3) rfl⟩
  intro p hp
  simp only [analyzerUnknownOnly, List.mem_singleton] at hp
  subst hp
  exact ⟨.unknownProvider "other", rfl⟩

/-- Claim C5: a provider reply whose cleaned text fails to decode as JSON is
turned by `parseResponse` into the fixed low-confidence REVIEW advisory
(`parseResponse` is a total function, so it never throws), and inside
`analyze` that advisory is returned as an analyzed insight attributed to the
first provider that replied: the result does not depend on the providers
after it, so no fallback is triggered by a parse failure. -/
theorem claim_C5 (a : AIAnalyzer) (net : Net) (decode : Decode) (input ctx : JsValue)
    (elapsed : ℕ) (pre post : List Provider) (p : Provider) (raw : String)
    (hen : a.enabled = true)
    (hprov : a.providers = pre ++ p :: post)
    (hpre : ∀ q ∈ pre, ∃ err, callProvider a net q (buildPrompt input ctx) = .error err)
    (hp : callProvider a net p (buildPrompt input ctx) = .ok raw)
    (hdec : decode (clean raw) = none) :
    parseResponse decode raw = invalidResponse ∧
    invalidResponse.recommendation = "REVIEW" ∧
    invalidResponse.confidence = 0 ∧
    invalidResponse.reasoning = .jstr "Invalid AI response" ∧
    analyze a net decode input ctx elapsed = successInsight a p invalidResponse elapsed ∧
    (successInsight a p invalidResponse elapsed).analyzed = true ∧
    (successInsight a p invalidResponse elapsed).provider = some p.name ∧
    ∀ post' : List Provider,
      analyze { a with providers := pre ++ p :: post' } net decode input ctx elapsed =
        successInsight a p invalidResponse elapsed := by
  have hparse : parseResponse decode raw = invalidResponse := by
    unfold parseResponse
    rw [hdec]
    rfl
  refine ⟨hparse, rfl, rfl, rfl, ?_, rfl, rfl, fun post' => ?_⟩
  · simp only [analyze, hen, if_true, hprov]
    rw [analyzeLoop_first_ok a net decode (buildPrompt input ctx) elapsed pre post p raw hpre hp,
      hparse]
  · simp only [analyze, hen, if_true]
    refine (analyzeLoop_config_congr a ⟨true, pre ++ p :: post', a.timeout, a.confidenceThreshold⟩
      net decode (buildPrompt input ctx) elapsed (pre ++ p :: post') rfl rfl).trans ?_
    rw [analyzeLoop_first_ok a net decode (buildPrompt input ctx) elapsed pre post' p raw hpre hp,
      hparse]

/-- Witness for C5: a single Gemini provider replies with the literal text
`not json`, whose parse fails; `analyze` still returns an analyzed insight
from that provider carrying the fixed REVIEW/0 advisory. -/
theorem claim_C5_witness :
    analyze analyzerGeminiOnly netNotJson decodeNone .jnull .jnull 5 =
      successInsight analyzerGeminiOnly provGemini invalidResponse 5 ∧
    (successInsight analyzerGeminiOnly provGemini invalidResponse 5).recommendation =
      some "REVIEW" ∧
    (successInsight analyzerGeminiOnly provGemini invalidResponse 5).confidence = some 0 ∧
    (successInsight analyzerGeminiOnly provGemini invalidResponse 5).provider = some "gemini" := by
  have h := claim_C5 analyzerGeminiOnly netNotJson decodeNone .jnull .jnull 5 [] [] provGemini
    "not json" rfl rfl (by simp) rfl rfl
  exact ⟨h.2.2.2.2.1, rfl, rfl, rfl⟩

/-- Claim C6, amended: for every successfully decoded advisory payload other
than the JSON null value, `parseResponse` returns a recommendation validated
against ALLOW/DENY/REVIEW — the payload's own value verbatim when it is one
of those three strings, and the REVIEW default when the recommendation field
is absent or invalid (not one of the three; the invalid case is the
hypothesis that every string held by the field fails the validation, which is
vacuously true when the field is absent or holds a non-string) — a
confidence clamped into `[0,1]` — 0.5 when absent or
non-numeric, the clamp of the payload's value when numeric — and risk and
mitigating factors defaulting to empty when absent.  When the payload decodes
to JSON null, the top-level property access `parsed.recommendation` throws,
the catch absorbs it, and the invalid-response fallback (REVIEW at confidence
0, still inside `[0,1]`) is returned instead. -/
theorem claim_C6 (decode : Decode) (raw : String) (v : JsValue)
    (hdec : decode (clean raw) = some v) :
    (v ≠ .jnull →
      (parseResponse decode raw).recommendation = "ALLOW" ∨
        (parseResponse decode raw).recommendation = "DENY" ∨
        (parseResponse decode raw).recommendation = "REVIEW") ∧
    (0 ≤ (parseResponse decode raw).confidence ∧ (parseResponse decode raw).confidence ≤ 1) ∧
    (v ≠ .jnull → (∀ q : ℚ, v.getField "confidence" ≠ some (.jnum q)) →
      (parseResponse decode raw).confidence = mkRat 1 2) ∧
    (v ≠ .jnull → ∀ q : ℚ, v.getField "confidence" = some (.jnum q) →
      (parseResponse decode raw).confidence = clamp01 q) ∧
    (v ≠ .jnull → v.getField "risk_factors" = none →
      (parseResponse decode raw).riskFactors = .jarr []) ∧
    (v ≠ .jnull → v.getField "mitigating_factors" = none →
      (parseResponse decode raw).mitigatingFactors = .jarr []) ∧
    (v = .jnull → parseResponse decode raw = invalidResponse) ∧
    (v ≠ .jnull →
      (∀ s : String, v.getField "recommendation" = some (.jstr s) →
        ¬(s = "ALLOW" ∨ s = "DENY" ∨ s = "REVIEW")) →
      (parseResponse decode raw).recommendation = "REVIEW") ∧
    (v ≠ .jnull → ∀ s : String, v.getField "recommendation" = some (.jstr s) →
      (s = "ALLOW" ∨ s = "DENY" ∨ s = "REVIEW") →
      (parseResponse decode raw).recommendation = s) := by
  have hpr : parseResponse decode raw = parseDecoded (some v) := by
    unfold parseResponse
    rw [hdec]
  rw [hpr]
  refine ⟨fun hv => ?_, ?_, fun hv hq => ?_, fun hv q hq => ?_, fun hv hr => ?_,
    fun hv hm => ?_, fun hv => ?_, fun hv hinv => ?_, fun hv s hg hvalid => ?_⟩
  · rw [parseDecoded_some v hv]
    exact recommendationOf_mem (v.getField "recommendation")
  · by_cases hv : v = .jnull
    · subst hv
      constructor <;> norm_num [parseDecoded, invalidResponse]
    · rw [parseDecoded_some v hv]
      exact confidenceOf_bounds (v.getField "confidence")
  · rw [parseDecoded_some v hv]
    show confidenceOf (v.getField "confidence") = mkRat 1 2
    rcases hg : v.getField "confidence" with _ | w
    · rfl
    · cases w with
      | jnum q => exact absurd hg (hq q)
      | jnull => rfl
      | jbool b => rfl
      | jstr s => rfl
      | jarr xs => rfl
      | jobj fs => rfl
  · rw [parseDecoded_some v hv]
    show confidenceOf (v.getField "confidence") = clamp01 q
    rw [hq]
    rfl
  · rw [parseDecoded_some v hv]
    show jsOrVal (v.getField "risk_factors") (.jarr []) = .jarr []
    rw [hr]
    rfl
  · rw [parseDecoded_some v hv]
    show jsOrVal (v.getField "mitigating_factors") (.jarr []) = .jarr []
    rw [hm]
    rfl
  · subst hv
    rfl
  · rw [parseDecoded_some v hv]
    show recommendationOf (v.getField "recommendation") = "REVIEW"
    rcases hg : v.getField "recommendation" with _ | w
    · rfl
    · cases w with
      | jstr s =>
        show (if s = "ALLOW" ∨ s = "DENY" ∨ s = "REVIEW" then s else "REVIEW") = "REVIEW"
        rw [if_neg (hinv s hg)]
      | jnull => rfl
      | jbool b => rfl
      | jnum q => rfl
      | jarr xs => rfl
      | jobj fs => rfl
  · rw [parseDecoded_some v hv]
    show recommendationOf (v.getField "recommendation") = s
    rw [hg]
    show (if s = "ALLOW" ∨ s = "DENY" ∨ s = "REVIEW" then s else "REVIEW") = s
    rw [if_pos hvalid]

/-- Counterexample to C6 as stated: the raw reply `null` cleans to the text
`null`, which `JSON.parse` successfully decodes (to the JSON null value); its
confidence field is absent, yet the stored confidence is 0, not the claimed
0.5 default — because `null.recommendation` throws and the catch returns the
invalid-response fallback. -/
theorem claim_C6_counterexample :
    decodeNullLit (clean "null") = some .jnull ∧
    JsValue.getField .jnull "confidence" = none ∧
    (parseResponse decodeNullLit "null").confidence = 0 ∧
    ¬(parseResponse decodeNullLit "null").confidence = mkRat 1 2 := by
  refine ⟨rfl, rfl, rfl, ?_⟩
  intro h
  rw [show (parseResponse decodeNullLit "null").confidence = 0 from rfl] at h
  norm_num [mkRat] at h

/-- Witness for the amended C6 at concrete object payloads: recommendation
DENY is kept verbatim and the out-of-range confidence 1.5 is clamped to 1;
a payload whose recommendation is the invalid string `MAYBE` falls back to
the REVIEW default. -/
theorem claim_C6_witness :
    (parseResponse decodeObj "OBJ").recommendation = "DENY" ∧
    (parseResponse decodeObj "OBJ").confidence = 1 ∧
    0 ≤ (parseResponse decodeObj "OBJ").confidence ∧
    (parseResponse decodeObj "OBJ").confidence ≤ 1 ∧
    (parseResponse decodeBadRec "BAD").recommendation = "REVIEW" := by
  have h := claim_C6 decodeObj "OBJ" payloadHighDeny rfl
  have hd := h.2.2.2.1 (fun hne => JsValue.noConfusion hne) (mkRat 3 2) rfl
  have hb := claim_C6 decodeBadRec "BAD" payloadBadRec rfl
  refine ⟨h.2.2.2.2.2.2.2.2 (fun hne => JsValue.noConfusion hne) "DENY" rfl
      (Or.inr (Or.inl rfl)),
    ?_, h.2.1.1, h.2.1.2,
    hb.2.2.2.2.2.2.2.1 (fun hne => JsValue.noConfusion hne) ?_⟩
  · rw [hd]
    rfl
  · intro s hs
    rw [show payloadBadRec.getField "recommendation" = some (.jstr "MAYBE") from rfl] at hs
    injection hs with h1
    injection h1 with h2
    subst h2
    decide

/-- Claim C7: when enabled, `analyze` tries the providers strictly in list
order — the first provider whose call succeeds determines the returned
insight, with its name and model recorded; changing the providers after it
changes nothing; and the result depends on the network only through its
behaviour at the configured timeout, which bounds every attempt. -/
theorem claim_C7 (a : AIAnalyzer) (net net' : Net) (decode : Decode) (input ctx : JsValue)
    (elapsed : ℕ) (pre post : List Provider) (p : Provider) (raw : String)
    (hen : a.enabled = true)
    (hprov : a.providers = pre ++ p :: post)
    (hpre : ∀ q ∈ pre, ∃ err, callProvider a net q (buildPrompt input ctx) = .error err)
    (hp : callProvider a net p (buildPrompt input ctx) = .ok raw) :
    analyze a net decode input ctx elapsed =
      successInsight a p (parseResponse decode raw) elapsed ∧
    (successInsight a p (parseResponse decode raw) elapsed).provider = some p.name ∧
    (successInsight a p (parseResponse decode raw) elapsed).model = some p.model ∧
    (∀ post' : List Provider,
      analyze { a with providers := pre ++ p :: post' } net decode input ctx elapsed =
        successInsight a p (parseResponse decode raw) elapsed) ∧
    ((∀ q s, net q s a.timeout = net' q s a.timeout) →
      analyze a net decode input ctx elapsed = analyze a net' decode input ctx elapsed) := by
  refine ⟨?_, rfl, rfl, fun post' => ?_, fun hnet =>
    analyze_net_congr a net net' decode input ctx elapsed hnet⟩
  · simp only [analyze, hen, if_true, hprov]
    exact analyzeLoop_first_ok a net decode (buildPrompt input ctx) elapsed pre post p raw hpre hp
  · simp only [analyze, hen, if_true]
    refine (analyzeLoop_config_congr a ⟨true, pre ++ p :: post', a.timeout, a.confidenceThreshold⟩
      net decode (buildPrompt input ctx) elapsed (pre ++ p :: post') rfl rfl).trans ?_
    exact analyzeLoop_first_ok a net decode (buildPrompt input ctx) elapsed pre post' p raw hpre hp

/-- Witness for C7: with providers `[other, gemini, claude]`, the unknown
first provider fails, Gemini replies, and the insight is attributed to
Gemini; the network-slice condition is discharged reflexively. -/
theorem claim_C7_witness :
    analyze analyzerMixed netNotJson decodeNone .jnull .jnull 7 =
      successInsight analyzerMixed provGemini (parseResponse decodeNone "not json") 7 ∧
    (successInsight analyzerMixed provGemini (parseResponse decodeNone "not json") 7).provider =
      some "gemini" ∧
    (successInsight analyzerMixed provGemini (parseResponse decodeNone "not json") 7).model =
      some "gemini-pro" := by
  have hpre : ∀ q ∈ [provOther], ∃ err,
      callProvider analyzerMixed netNotJson q (buildPrompt .jnull .jnull) = .error err := by
    intro q hq
    simp only [List.mem_singleton] at hq
    subst hq
    exact ⟨.unknownProvider "other", rfl⟩
  have h := claim_C7 analyzerMixed netNotJson netNotJson decodeNone .jnull .jnull 7 [provOther]
    [provClaude] provGemini "not json" rfl rfl hpre rfl
  exact ⟨h.1, h.2.1, h.2.2.1⟩

/-- Claim C10: a provider whose name is neither `gemini` nor `claude` makes
`callProvider` throw an unknown-provider error for every network (so before
any request is issued); inside `analyze` this is absorbed as an ordinary
provider failure, so a provider list of only unknown names yields the
unanalyzed ALL_PROVIDERS_FAILED insight, identically for any two networks —
no network activity can influence the result. -/
theorem claim_C10 (a : AIAnalyzer) (net net' : Net) (decode : Decode) (input ctx : JsValue)
    (elapsed : ℕ)
    (hunk : ∀ p ∈ a.providers, p.name ≠ "gemini" ∧ p.name ≠ "claude")
    (hen : a.enabled = true) :
    (∀ p ∈ a.providers, ∀ prompt,
      callProvider a net p prompt = .error (.unknownProvider p.name)) ∧
    analyze a net decode input ctx elapsed = allFailedInsight elapsed ∧
    (allFailedInsight elapsed).analyzed = false ∧
    (allFailedInsight elapsed).reason = some "ALL_PROVIDERS_FAILED" ∧
    analyze a net decode input ctx elapsed = analyze a net' decode input ctx elapsed := by
  have hfail : ∀ (n : Net) (p : Provider), p ∈ a.providers → ∀ prompt,
      callProvider a n p prompt = .error (.unknownProvider p.name) :=
    fun n p hp prompt => callProvider_unknown a n p prompt (hunk p hp).1 (hunk p hp).2
  have hrun : ∀ n : Net, analyze a n decode input ctx elapsed = allFailedInsight elapsed := by
    intro n
    simp only [analyze, hen, if_true]
    exact analyzeLoop_all_fail a n decode (buildPrompt input ctx) elapsed a.providers
      fun p hp => ⟨.unknownProvider p.name, hfail n p hp _⟩
  exact ⟨fun p hp prompt => hfail net p hp prompt, hrun net, rfl, rfl,
    (hrun net).trans (hrun net').symm⟩

/-- Witness for C10: an enabled analyzer whose only provider is named
`other` yields ALL_PROVIDERS_FAILED on a dead network and on a live one, with
identical results. -/
theorem claim_C10_witness :
    analyze analyzerUnknownOnly netDown decodeNone .jnull .jnull 9 = allFailedInsight 9 ∧
    analyze analyzerUnknownOnly netDown decodeNone .jnull .jnull 9 =
      analyze analyzerUnknownOnly netNotJson decodeNone .jnull .jnull 9 := by
  have hunk : ∀ p ∈ analyzerUnknownOnly.providers, p.name ≠ "gemini" ∧ p.name ≠ "claude" := by
    intro p hp
    simp only [analyzerUnknownOnly, List.mem_singleton] at hp
    subst hp
    exact ⟨by decide, by decide⟩
  have h := claim_C10 analyzerUnknownOnly netDown netNotJson decodeNone .jnull .jnull 9 hunk rfl
  exact ⟨h.2.1, h.2.2.2.2⟩

end DCP
